import Mathlib

/-
Verification of the OmniExporter synchronization core (src/options.js).
Each JavaScript function used by the claims is shallowly embedded as an
executable Lean definition; machine integers are modelled as Int with an
explicit wrap to 32 bits where the source relies on it, strings as Lean
strings (lists of characters), and external effects (chrome messaging,
storage, the Notion HTTP API, timers) as explicit oracle inputs and
explicit output traces.
-/

/- ===== JavaScript primitive helpers ===== -/

/-- JS `a || b` on strings: the empty string is falsy. -/
def jsOr (a b : String) : String := if a = "" then b else a

/-- JS whitespace test for the characters relevant to `String.trim`
(ASCII space, tab, newline, carriage return, vertical tab, form feed). -/
def jsIsWs (c : Char) : Bool :=
  c = ' ' || c = '\t' || c = '\n' || c = '\x0d' || c = '\x0b' || c = '\x0c'

/-- JS `String.prototype.trim`: drop whitespace from both ends. -/
def jsTrim (s : List Char) : List Char :=
  ((s.dropWhile jsIsWs).reverse.dropWhile jsIsWs).reverse

/-- `jsTrim` on Lean strings. -/
def jsTrimStr (s : String) : String := ⟨jsTrim s.data⟩

/-- Sub-list containment used to model JS `String.prototype.includes`. -/
def containsSub : List Char → List Char → Bool
  | s, pat =>
    if pat.isPrefixOf s then true
    else match s with
      | [] => false
      | _ :: rest => containsSub rest pat

/-- JS `s.includes(pat)`. -/
def jsIncludes (s pat : String) : Bool := containsSub s.data pat.data

/-- JS `String.prototype.toLowerCase` (ASCII, as used by the classifier). -/
def toLowerStr (s : String) : String := ⟨s.data.map Char.toLower⟩

/-- JS `ToInt32`: wrap an integer into the range `[-2^31, 2^31)`. -/
def toInt32 (n : Int) : Int :=
  let m := n % 4294967296
  if m < 2147483648 then m else m - 4294967296

/-- Digit character for base-36 (`0`-`9` then `a`-`z`). -/
def digit36 (n : Nat) : Char :=
  if n < 10 then Char.ofNat (48 + n) else Char.ofNat (87 + n)

/-- Base-36 digit expansion, fuelled so that it is structurally recursive. -/
def natToBase36Aux : Nat → Nat → List Char → List Char
  | 0, _, acc => acc
  | fuel + 1, n, acc =>
    if n < 36 then digit36 (n % 36) :: acc
    else natToBase36Aux fuel (n / 36) (digit36 (n % 36) :: acc)

/-- Digits of `n` in base 36, least fuel that always suffices. -/
def natToBase36 (n : Nat) : List Char := natToBase36Aux (n + 1) n []

/-- JS `Number.prototype.toString(36)` for 32-bit integers. -/
def toString36 (i : Int) : String :=
  if i < 0 then ⟨'-' :: natToBase36 i.natAbs⟩ else ⟨natToBase36 i.natAbs⟩

theorem natToBase36Aux_length (fuel n : Nat) (acc : List Char) :
    acc.length ≤ (natToBase36Aux fuel n acc).length := by
  induction fuel generalizing n acc with
  | zero => simp [natToBase36Aux]
  | succ fuel ih =>
    simp only [natToBase36Aux]
    split
    · simp
    · exact le_trans (by simp) (ih (n / 36) (digit36 (n % 36) :: acc))

theorem natToBase36_ne_nil (n : Nat) : natToBase36 n ≠ [] := by
  have h := natToBase36Aux_length n n [digit36 (n % 36)]
  intro hcontra
  simp only [natToBase36, natToBase36Aux] at hcontra
  split at hcontra
  · exact absurd hcontra (by simp)
  · have := natToBase36Aux_length n (n / 36) [digit36 (n % 36)]
    rw [hcontra] at this
    simp at this

theorem toString36_ne_empty (i : Int) : toString36 i ≠ "" := by
  unfold toString36
  split
  · intro h
    have : ('-' :: natToBase36 i.natAbs) = ([] : List Char) := congrArg String.data h
    simp at this
  · intro h
    have : natToBase36 i.natAbs = ([] : List Char) := congrArg String.data h
    exact natToBase36_ne_nil _ this

/- ===== Data model (src/options.js ThreadDetail payloads) ===== -/

/-- A markdown sub-block of a Perplexity content block.  In the source,
`chunks` is truthy whenever the array exists (even empty), hence `Option`. -/
structure MarkdownBlock where
  answer : String
  chunks : Option (List String)
deriving DecidableEq

/-- One typed content block of an entry. -/
structure ContentBlock where
  intended_usage : String
  markdown_block : Option MarkdownBlock
  web_result_block : Option (List String)
deriving DecidableEq

/-- One query/answer turn.  Absent JS string fields are the empty string
(both are falsy in every use site); an absent `blocks` array is `none`. -/
structure Entry where
  query : String
  query_str : String
  answer : String
  text : String
  blocks : Option (List ContentBlock)
deriving DecidableEq

/-- The `detail` sub-object of an extracted thread. -/
structure Detail where
  entries : List Entry
deriving DecidableEq

/-- An extracted thread payload (`response.data` in `syncSingleThread`). -/
structure ThreadData where
  uuid : String
  title : String
  detail : Option Detail
deriving DecidableEq

/-- `data.detail?.entries || []`. -/
def entriesOf (data : ThreadData) : List Entry :=
  match data.detail with
  | some d => d.entries
  | none => []

/- ===== DuplicateDetector (options.js lines 480-527) ===== -/

namespace DuplicateDetector

/-- `simpleHash`: the 32-bit rolling hash
`hash = ((hash << 5) - hash) + charCode; hash = hash & hash`,
rendered in base 36. -/
def simpleHash (str : String) : String :=
  toString36 (str.data.foldl
    (fun hash c => toInt32 (toInt32 (hash * 32) - hash + (c.toNat : Int))) 0)

/-- `generateFingerprint`: joins uuid, title, entry count, first query and
last query with a pipe separator and hashes the result. -/
def generateFingerprint (data : ThreadData) : String :=
  let entries := entriesOf data
  let firstQ := match entries.head? with
    | none => ""
    | some e => jsOr e.query (jsOr e.query_str "")
  let lastQ := match entries.getLast? with
    | none => ""
    | some e => jsOr e.query (jsOr e.query_str "")
  let content :=
    data.uuid ++ "|" ++ data.title ++ "|" ++ toString entries.length ++ "|"
      ++ firstQ ++ "|" ++ lastQ
  simpleHash content

/-- The persisted `exportFingerprints` map. -/
def FpStore := String → Option String

/-- `hasChanged(uuid, newFingerprint)`:
`!oldFingerprint || oldFingerprint !== newFingerprint`
(an absent entry and the empty string are both falsy). -/
def hasChanged (store : FpStore) (uuid newFingerprint : String) : Bool :=
  match store uuid with
  | none => true
  | some old => old == "" || old != newFingerprint

/-- `saveFingerprint(uuid, fingerprint)`. -/
def saveFingerprint (store : FpStore) (uuid fingerprint : String) : FpStore :=
  fun u => if u = uuid then some fingerprint else store u

theorem generateFingerprint_ne_empty (data : ThreadData) :
    generateFingerprint data ≠ "" := by
  unfold generateFingerprint simpleHash
  exact toString36_ne_empty _

end DuplicateDetector

/- ===== ErrorRecovery (options.js lines 532-562) ===== -/

namespace ErrorRecovery

inductive ErrorClass where
  | rateLimit | authError | networkError | dataError | unknown
deriving DecidableEq

/-- `classifyError`: inspects the lowercased message for marker substrings. -/
def classifyError (message : String) : ErrorClass :=
  let m := toLowerStr message
  if jsIncludes m "rate" || jsIncludes m "429" then .rateLimit
  else if jsIncludes m "unauthorized" || jsIncludes m "401" then .authError
  else if jsIncludes m "network" || jsIncludes m "fetch" then .networkError
  else if jsIncludes m "validation" || jsIncludes m "invalid" then .dataError
  else .unknown

/-- The recovery directive returned by `handleExportError`; fields absent
from a JS branch are their falsy defaults. -/
structure Recovery where
  retry : Bool
  delay : Option Nat
  userAction : Option String
  waitForOnline : Bool
  skip : Bool
  message : String
deriving DecidableEq

/-- `handleExportError(error, context)`; `onLine` models `navigator.onLine`. -/
def handleExportError (onLine : Bool) (errMsg : String) : Recovery :=
  match classifyError errMsg with
  | .rateLimit => ⟨true, some 60000, none, false, false, "Rate limited. Waiting 60s..."⟩
  | .authError => ⟨false, none, some "relogin", false, false, "Please re-login to the platform"⟩
  | .networkError =>
    if !onLine then ⟨true, none, none, true, false, "Waiting for internet..."⟩
    else ⟨true, some 5000, none, false, false, "Network error. Retrying..."⟩
  | .dataError => ⟨false, none, none, false, true, "Invalid data, skipping"⟩
  | .unknown => ⟨false, none, none, false, false, errMsg⟩

/-- JS truthiness of `recovery.delay` (a number: 0 and undefined are falsy). -/
def delayTruthy (d : Option Nat) : Bool :=
  match d with
  | none => false
  | some n => n != 0

end ErrorRecovery

/- ===== withRetry (options.js lines 109-128) ===== -/

/-- The non-retryable test of `withRetry`:
`error.message?.includes('unauthorized') || error.message?.includes('Invalid')`. -/
def isNonRetryable (msg : String) : Bool :=
  jsIncludes msg "unauthorized" || jsIncludes msg "Invalid"

/-- Observable behaviour of one `withRetry` call: its outcome, how many
times the wrapped operation ran, and the backoff delays awaited. -/
structure RetryResult (α : Type) where
  result : Except String α
  calls : Nat
  delays : List Nat

/-- The `for (let attempt = 0; attempt < maxRetries; attempt++)` loop.
`oracle n` is the outcome of the `n`-th invocation of `fn`; `remaining`
counts the loop iterations still allowed (`maxRetries - attempt`), and
`lastError` is the variable of the same name. -/
def withRetryAux {α : Type} (oracle : Nat → Except String α)
    (maxRetries baseDelayMs : Nat) :
    Nat → Nat → Option String → RetryResult α
  | 0, _, lastError => ⟨.error (lastError.getD ""), 0, []⟩
  | remaining + 1, attempt, _ =>
    match oracle attempt with
    | .ok v => ⟨.ok v, 1, []⟩
    | .error e =>
      if isNonRetryable e then ⟨.error e, 1, []⟩
      else
        let rest := withRetryAux oracle maxRetries baseDelayMs remaining (attempt + 1) (some e)
        if attempt + 1 < maxRetries then
          ⟨rest.result, rest.calls + 1, baseDelayMs * 2 ^ attempt :: rest.delays⟩
        else
          ⟨rest.result, rest.calls + 1, rest.delays⟩

/-- `withRetry(fn, maxRetries = 3, baseDelayMs = 2000)`. -/
def withRetry {α : Type} (oracle : Nat → Except String α)
    (maxRetries : Nat := 3) (baseDelayMs : Nat := 2000) : RetryResult α :=
  withRetryAux oracle maxRetries baseDelayMs maxRetries 0 none

theorem withRetryAux_calls_le {α : Type} (oracle : Nat → Except String α)
    (maxRetries baseDelayMs : Nat) :
    ∀ remaining attempt lastError,
      (withRetryAux oracle maxRetries baseDelayMs remaining attempt lastError).calls ≤ remaining := by
  intro remaining
  induction remaining with
  | zero => intro attempt lastError; simp [withRetryAux]
  | succ r ih =>
    intro attempt lastError
    simp only [withRetryAux]
    match h : oracle attempt with
    | .ok v => simp
    | .error e =>
      simp only
      split
      · simp
      · split <;> simpa using Nat.succ_le_succ (ih (attempt + 1) (some e))

/- ===== DataValidator (options.js lines 259-364) ===== -/

namespace DataValidator

/-- `!!(entry.query || entry.query_str)`. -/
def hasQuestionE (e : Entry) : Bool := e.query != "" || e.query_str != ""

/-- The per-block test of the answer loop:
`b.intended_usage === 'ask_text' && b.markdown_block &&
 (b.markdown_block.answer || b.markdown_block.chunks)`. -/
def blockHasAskText (b : ContentBlock) : Bool :=
  b.intended_usage == "ask_text" &&
    (match b.markdown_block with
     | none => false
     | some mb => mb.answer != "" || mb.chunks.isSome)

/-- Whether an entry ends the loop with `hasAnswer = true`: a text block in
`blocks`, else a non-empty `answer` or `text` field. -/
def hasAnswerE (e : Entry) : Bool :=
  (match e.blocks with
   | some bs => bs.any blockHasAskText
   | none => false) || (e.answer != "" || e.text != "")

/-- The Perplexity warning test: some block with
`intended_usage === 'web_results'` carrying a non-empty result list. -/
def entryHasWebSources (e : Entry) : Bool :=
  match e.blocks with
  | some bs => bs.any (fun b =>
      b.intended_usage == "web_results" &&
        (match b.web_result_block with
         | some ws => decide (0 < ws.length)
         | none => false))
  | none => false

structure ValidationStats where
  totalEntries : Nat
  emptyEntries : Nat
  totalQuestions : Nat
  totalAnswers : Nat
  hasUuid : Bool
  hasTitle : Bool
deriving DecidableEq

structure ValidationResult where
  valid : Bool
  errors : List String
  warnings : List String
  completeness : Nat
  stats : ValidationStats
deriving DecidableEq

/-- `validateThreadData(data, platform)`.  The `forEach` accumulation is
rendered as counts over the entry list; `Math.round((contentScore /
maxScore) * 100)` is exact rational rounding (half away from zero). -/
def validateThreadData (data : ThreadData) (platform : String) : ValidationResult :=
  let entries := entriesOf data
  let totalQuestions := entries.countP hasQuestionE
  let totalAnswers := entries.countP hasAnswerE
  let emptyEntries := entries.countP (fun e => !hasAnswerE e)
  let contentScore := 10 * totalQuestions + 15 * totalAnswers
  let maxScore := entries.length * 25
  let completeness :=
    if 0 < maxScore then (contentScore * 200 + maxScore) / (2 * maxScore) else 0
  let errors :=
    (if data.uuid == "" then ["Missing thread UUID"] else [])
      ++ (if entries.length == 0 then ["No conversation entries found"] else [])
      ++ (if decide (entries.length < 2 * emptyEntries) && decide (0 < entries.length) then
            ["More than 50% of entries empty (" ++ toString emptyEntries ++ "/"
              ++ toString entries.length ++ ")"]
          else [])
  let warnings :=
    (if data.title == "" || jsTrimStr data.title == "" || data.title == "Untitled" then
        ["Thread has no meaningful title"]
      else [])
      ++ (if platform == "Perplexity" && !(entries.any entryHasWebSources)
              && decide (0 < entries.length) then
            ["No sources found (unusual for Perplexity)"]
          else [])
  { valid := errors.isEmpty
    errors := errors
    warnings := warnings
    completeness := completeness
    stats :=
      { totalEntries := entries.length
        emptyEntries := emptyEntries
        totalQuestions := totalQuestions
        totalAnswers := totalAnswers
        hasUuid := data.uuid != ""
        hasTitle := data.title != "" && data.title != "Untitled" } }

end DataValidator

/- ===== ExportProgressManager (options.js lines 221-254) ===== -/

namespace ExportProgressManager

/-- A stored progress record (`{current, total, success, failed, uuids}`
plus the `lastUpdate` stamp added by `saveProgress`); only the fields read
by `getActiveJob` are modelled. -/
structure ProgressRec where
  lastUpdate : Nat
  current : Nat
  total : Nat
deriving DecidableEq

/-- `key.replace('export_progress_', '')` on a key with that prefix. -/
def jobIdOf (key : String) : String := key.drop 16

/-- `getActiveJob()`: scan the whole store for an `export_progress_` key
whose record is younger than one hour and not complete; `now` models
`Date.now()` and the list the key-ordered storage snapshot. -/
def getActiveJob (now : Nat) : List (String × ProgressRec) → Option (String × ProgressRec)
  | [] => none
  | (key, progress) :: rest =>
    if key.startsWith "export_progress_"
        && decide (now - progress.lastUpdate < 60 * 60 * 1000)
        && decide (progress.current < progress.total) then
      some (jobIdOf key, progress)
    else getActiveJob now rest

end ExportProgressManager

/- ===== splitTextIntoChunks (options.js lines 2218-2245) ===== -/

/-- JS `str.lastIndexOf(pat, fromIndex)` over character lists: the largest
start position at most `fromIndex` where `pat` occurs, else `-1`. -/
def lastIndexOfFrom (s pat : List Char) : Nat → Int
  | 0 => if pat.isPrefixOf s then 0 else -1
  | i + 1 =>
    if pat.isPrefixOf (s.drop (i + 1)) then ((i + 1 : Nat) : Int)
    else lastIndexOfFrom s pat i

/-- The break-point search of `splitTextIntoChunks` (options.js 2229-2238):
last newline at or before `maxLength`, else last sentence boundary, else
last space, each rejected when it falls before `maxLength / 2`, else
`maxLength` itself.  (`breakPoint < maxLength / 2` on JS numbers is
`breakPoint * 2 < maxLength` exactly.) -/
def chunkBreakAt (maxLength : Nat) (remaining : List Char) : Nat :=
  let bp1 : Int := lastIndexOfFrom remaining ['\n'] maxLength
  let bp2 : Int :=
    if bp1 * 2 < (maxLength : Int) then lastIndexOfFrom remaining ['.', ' '] maxLength
    else bp1
  let bp3 : Int :=
    if bp2 * 2 < (maxLength : Int) then lastIndexOfFrom remaining [' '] maxLength
    else bp2
  let bp : Int := if bp3 * 2 < (maxLength : Int) then (maxLength : Int) else bp3
  bp.toNat

/-- The `while (remaining.length > 0)` loop of `splitTextIntoChunks`,
fuelled for structural recursion (fuel = initial length always suffices,
as each pass consumes at least one character).  Each pass pushes
`remaining.slice(0, breakPoint + 1).trim()` and continues on
`remaining.slice(breakPoint + 1)`. -/
def splitChunksGo (maxLength : Nat) : Nat → List Char → List (List Char)
  | 0, _ => []
  | fuel + 1, remaining =>
    if remaining.length = 0 then []
    else if remaining.length ≤ maxLength then [remaining]
    else
      let k : Nat := chunkBreakAt maxLength remaining + 1
      jsTrim (remaining.take k) :: splitChunksGo maxLength fuel (remaining.drop k)

/-- `splitTextIntoChunks(text, maxLength = 1900)`. -/
def splitTextIntoChunks (text : List Char) (maxLength : Nat := 1900) : List (List Char) :=
  splitChunksGo maxLength text.length text

/- ===== syncSingleThread (options.js lines 1811-1879) ===== -/

/-- The values `syncStatusMap[thread.uuid]` can end a run with. -/
inductive SyncStatus where
  | syncing | synced | skipped | failed
deriving DecidableEq

/-- The `{uuid, title}` listing record passed to `syncSingleThread`. -/
structure ThreadMeta where
  uuid : String
  title : String
deriving DecidableEq

/-- External outcomes of one pass of the pipeline: whether `getAITab`
found a tab, the result of the `EXTRACT_CONTENT_BY_UUID` message, and the
result of `syncToNotion` if it is reached (each pass re-runs all three). -/
structure Attempt where
  tab : Bool
  extract : Except String ThreadData
  notion : Except String Unit

/-- What one `syncSingleThread` call did: the final status, the
`reportFailure` reason if any, the number of Notion destination calls,
the number of pipeline passes (1 + retries), and the fingerprint store
afterwards. -/
structure SyncOutcome where
  status : SyncStatus
  reason : Option String
  notionCalls : Nat
  attempts : Nat
  store : DuplicateDetector.FpStore

/-- `recovery.message || msgError.message`. -/
def recoveryReason (rec : ErrorRecovery.Recovery) (errMsg : String) : String :=
  jsOr rec.message errMsg

/-- `syncSingleThread(thread, forceReExport)`.  The script lists the
external outcomes of successive passes; the self-recursive retry
(`return syncSingleThread(thread, forceReExport)`) consumes the next
entry, so an exhausted script yields `none`.  Logging and DOM updates are
omitted. -/
def syncSingleThread (onLine : Bool) (platform : String) (thread : ThreadMeta)
    (forceReExport : Bool) :
    List Attempt → DuplicateDetector.FpStore → Option SyncOutcome
  | [], _ => none
  | a :: rest, store =>
    if !a.tab then
      some ⟨.failed, some "No AI platform tab found", 0, 1, store⟩
    else
      match a.extract with
      | .error msgError =>
        let recovery := ErrorRecovery.handleExportError onLine msgError
        if recovery.retry && ErrorRecovery.delayTruthy recovery.delay then
          (syncSingleThread onLine platform thread forceReExport rest store).map
            (fun o => ⟨o.status, o.reason, o.notionCalls, o.attempts + 1, o.store⟩)
        else
          some ⟨.failed, some (recoveryReason recovery msgError), 0, 1, store⟩
      | .ok data =>
        let validation := DataValidator.validateThreadData data platform
        if !validation.valid then
          some ⟨.failed,
            some ("Validation failed: " ++ String.intercalate ", " validation.errors),
            0, 1, store⟩
        else
          let fingerprint := DuplicateDetector.generateFingerprint data
          let hasChanged := DuplicateDetector.hasChanged store thread.uuid fingerprint
          if !hasChanged && !forceReExport then
            some ⟨.skipped, none, 0, 1, store⟩
          else
            match a.notion with
            | .ok _ =>
              some ⟨.synced, none, 1, 1,
                DuplicateDetector.saveFingerprint store thread.uuid fingerprint⟩
            | .error msgError =>
              let recovery := ErrorRecovery.handleExportError onLine msgError
              if recovery.retry && ErrorRecovery.delayTruthy recovery.delay then
                (syncSingleThread onLine platform thread forceReExport rest store).map
                  (fun o => ⟨o.status, o.reason, o.notionCalls + 1, o.attempts + 1, o.store⟩)
              else
                some ⟨.failed, some (recoveryReason recovery msgError), 1, 1, store⟩

/- ===== bulkSyncToNotion (options.js lines 1907-1976) ===== -/

/-- Counters and checkpoints of one bulk run; each checkpoint is the
`{current: i, success, failed}` record handed to
`ExportProgressManager.saveProgress`. -/
structure BulkResult where
  success : Nat
  failed : Nat
  checkpoints : List (Nat × Nat × Nat)

/-- The `for (let i = 0; i < total; i++)` loop of `bulkSyncToNotion`.
`results u` is the status `syncSingleThread` leaves in `syncStatusMap`
for uuid `u`, or `none` when `threadData.find` does not know the uuid
(then the body is skipped entirely). -/
def bulkSyncGo (results : String → Option SyncStatus) :
    List String → Nat → Nat → Nat → List (Nat × Nat × Nat) → BulkResult
  | [], _, success, failed, cps => ⟨success, failed, cps⟩
  | u :: rest, i, success, failed, cps =>
    match results u with
    | none => bulkSyncGo results rest (i + 1) success failed cps
    | some st =>
      let success' := if st = .synced then success + 1 else success
      let failed' := if st = .synced then failed else failed + 1
      let cps' := if i % 5 = 0 then cps ++ [(i, success', failed')] else cps
      bulkSyncGo results rest (i + 1) success' failed' cps'

/-- `bulkSyncToNotion()` over the selected uuid list. -/
def bulkSyncToNotion (results : String → Option SyncStatus) (uuids : List String) :
    BulkResult :=
  bulkSyncGo results uuids 0 0 0 []

/- ===== RateLimiter (options.js lines 158-214) ===== -/

namespace RateLimiter

/-- One queued `throttle` call: when it was enqueued and how long its
`fn()` takes to settle. -/
structure Item where
  addedAt : Nat
  dur : Nat
deriving DecidableEq

/-- The mutable state of the limiter plus the dispatch trace: `time` is
the current `Date.now()`, `tsRev` is `this.requestTimestamps` newest
first, and `traceRev` records every dispatch ever made, newest first. -/
structure RLState where
  time : Nat
  tsRev : List Nat
  traceRev : List Nat
deriving DecidableEq

/-- `const delay = this.queue.length > 50 ? 200 : 500` (options.js 208). -/
def adaptiveDelay (queueLen : Nat) : Nat := if queueLen > 50 then 200 else 500

/-- `Math.min(...list)` with an arbitrary default for the empty list
(unreachable whenever `requestsPerMinute ≥ 1`). -/
def minimumD : List Nat → Nat
  | [] => 0
  | x :: xs => xs.foldl min x

/-- One run of `processQueue` draining queue `q`, fuelled: the wait
branch retries the same item, so iterations are not bounded by the queue
length alone.  Time advances at each `await` (the rate-limit wait, the
dispatched `fn()`, and the adaptive delay); the stale-request rejection
does not await. -/
def processQueue (R : Nat) : Nat → List Item → RLState → RLState
  | 0, _, s => s
  | _ + 1, [], s => s
  | fuel + 1, item :: qrest, s =>
    let now := s.time
    if 5 * 60 * 1000 < now - item.addedAt then
      processQueue R fuel qrest s
    else
      let ts := s.tsRev.filter (fun t => now - t < 60000)
      if R ≤ ts.length then
        let oldestRequest := minimumD ts
        let waitTime := 60000 - (now - oldestRequest) + 100
        processQueue R fuel (item :: qrest) ⟨now + waitTime, ts, s.traceRev⟩
      else
        processQueue R fuel qrest
          ⟨now + item.dur + adaptiveDelay qrest.length, now :: ts, now :: s.traceRev⟩

/-- A sequence of `processQueue` runs against one limiter instance:
each batch is (idle gap before the run, fuel, queue submitted). -/
def processQueueRuns (R : Nat) : List (Nat × Nat × List Item) → RLState → RLState
  | [], s => s
  | (gap, fuel, q) :: bs, s =>
    processQueueRuns R bs (processQueue R fuel q ⟨s.time + gap, s.tsRev, s.traceRev⟩)

/-- The initial limiter state at clock value `t0`. -/
def initState (t0 : Nat) : RLState := ⟨t0, [], []⟩

end RateLimiter

/- ===== Claim theorems ===== -/

/-- C7: `withRetry` with `maxRetries = 3` invokes the wrapped operation at
most 3 times; when the first two attempts fail retryably it waits
`b * 2 ^ 0` before the second attempt and `b * 2 ^ 1` before the third,
and after a third consecutive failure it rethrows the last error. -/
theorem c7_retry_bound :
    (∀ {α : Type} (oracle : Nat → Except String α) (b : Nat),
        (withRetry oracle 3 b).calls ≤ 3)
    ∧ (∀ {α : Type} (oracle : Nat → Except String α) (b : Nat) (e0 e1 : String),
        oracle 0 = .error e0 → oracle 1 = .error e1 →
        isNonRetryable e0 = false → isNonRetryable e1 = false →
        (withRetry oracle 3 b).calls = 3
        ∧ (withRetry oracle 3 b).delays = [b * 2 ^ 0, b * 2 ^ 1]
        ∧ ∀ e2, oracle 2 = .error e2 → (withRetry oracle 3 b).result = .error e2) := by
  constructor
  · intro α oracle b
    exact withRetryAux_calls_le oracle 3 b 3 0 none
  · intro α oracle b e0 e1 h0 h1 hr0 hr1
    cases h2 : oracle 2 with
    | ok v =>
      refine ⟨?_, ?_, ?_⟩ <;>
        simp [withRetry, withRetryAux, h0, h1, h2, hr0, hr1]
    | error e =>
      cases hnr2 : isNonRetryable e <;>
        refine ⟨?_, ?_, ?_⟩ <;>
          simp [withRetry, withRetryAux, h0, h1, h2, hr0, hr1, hnr2]

/-- Witness for C7 at the constant failing operation with base delay 2000. -/
theorem c7_retry_bound_witness :
    (withRetry (fun _ => (.error "boom" : Except String Nat)) 3 2000).calls = 3
    ∧ (withRetry (fun _ => (.error "boom" : Except String Nat)) 3 2000).delays
        = [2000 * 2 ^ 0, 2000 * 2 ^ 1]
    ∧ (withRetry (fun _ => (.error "boom" : Except String Nat)) 3 2000).result
        = .error "boom" := by
  have h := c7_retry_bound.2 (fun _ => (.error "boom" : Except String Nat)) 2000
    "boom" "boom" rfl rfl (by decide) (by decide)
  exact ⟨h.1, h.2.1, h.2.2 "boom" rfl⟩

/-- C8: when the first attempt throws an error whose message contains
`unauthorized` or `Invalid`, `withRetry` rethrows it after a single
invocation, with no delay and no further attempts. -/
theorem c8_nonretryable_immediate {α : Type} (oracle : Nat → Except String α)
    (maxRetries baseDelayMs : Nat) (e : String)
    (hm : 1 ≤ maxRetries) (h0 : oracle 0 = .error e)
    (hnr : isNonRetryable e = true) :
    withRetry oracle maxRetries baseDelayMs = ⟨.error e, 1, []⟩ := by
  cases maxRetries with
  | zero => omega
  | succ m => simp [withRetry, withRetryAux, h0, hnr]

/-- Witness for C8 at a concrete validation-style error message. -/
theorem c8_nonretryable_immediate_witness :
    withRetry (fun _ => (.error "Invalid request" : Except String Nat)) 3 2000
      = ⟨.error "Invalid request", 1, []⟩ :=
  c8_nonretryable_immediate (fun _ => (.error "Invalid request" : Except String Nat))
    3 2000 "Invalid request" (by decide) rfl (by decide)

/-- C9: `getActiveJob` returns a stored job exactly when some stored
progress record (an `export_progress_` key) has a `lastUpdate` younger
than one hour and `current < total`; otherwise it returns null. -/
theorem c9_get_active_job (now : Nat)
    (store : List (String × ExportProgressManager.ProgressRec)) :
    (ExportProgressManager.getActiveJob now store ≠ none) ↔
      ∃ kp ∈ store, kp.1.startsWith "export_progress_" = true
        ∧ now - kp.2.lastUpdate < 60 * 60 * 1000
        ∧ kp.2.current < kp.2.total := by
  induction store with
  | nil => simp [ExportProgressManager.getActiveJob]
  | cons hd tl ih =>
    obtain ⟨key, progress⟩ := hd
    simp only [ExportProgressManager.getActiveJob]
    split
    · rename_i h
      simp only [Bool.and_eq_true, decide_eq_true_eq] at h
      simp only [ne_eq, reduceCtorEq, not_false_eq_true, true_iff]
      exact ⟨(key, progress), List.mem_cons_self _ _, h.1.1, h.1.2, h.2⟩
    · rename_i h
      simp only [Bool.and_eq_true, decide_eq_true_eq, not_and] at h
      rw [ih]
      constructor
      · rintro ⟨kp, hmem, hkp⟩
        exact ⟨kp, List.mem_cons_of_mem _ hmem, hkp⟩
      · rintro ⟨kp, hmem, hkp⟩
        rcases List.mem_cons.mp hmem with heq | hmem'
        · subst heq
          exact absurd hkp.2.2 (h ⟨hkp.1, hkp.2.1⟩)
        · exact ⟨kp, hmem', hkp⟩

/-- Running total of successes in the bulk loop. -/
theorem bulkSyncGo_success (results : String → Option SyncStatus) :
    ∀ (l : List String) (i s f : Nat) (cps : List (Nat × Nat × Nat)),
      (bulkSyncGo results l i s f cps).success
        = s + (l.filter (fun u => decide (results u = some .synced))).length := by
  intro l
  induction l with
  | nil => intro i s f cps; simp [bulkSyncGo]
  | cons u rest ih =>
    intro i s f cps
    simp only [bulkSyncGo]
    cases hr : results u with
    | none => simp [ih, hr]
    | some st =>
      by_cases hst : st = SyncStatus.synced <;>
        simp [ih, hr, hst, List.filter_cons] <;> omega

/-- Running total of failures in the bulk loop. -/
theorem bulkSyncGo_failed (results : String → Option SyncStatus) :
    ∀ (l : List String) (i s f : Nat) (cps : List (Nat × Nat × Nat)),
      (bulkSyncGo results l i s f cps).failed
        = f + (l.filter
            (fun u => (results u).isSome && !decide (results u = some .synced))).length := by
  intro l
  induction l with
  | nil => intro i s f cps; simp [bulkSyncGo]
  | cons u rest ih =>
    intro i s f cps
    simp only [bulkSyncGo]
    cases hr : results u with
    | none => simp [ih, hr]
    | some st =>
      by_cases hst : st = SyncStatus.synced <;>
        simp [ih, hr, hst, List.filter_cons] <;> omega

/-- In an all-skipped bulk run every checkpoint records zero successes and
a failed count equal to the item index plus one. -/
theorem bulkSyncGo_skipped_checkpoints :
    ∀ (l : List String) (i f : Nat) (cps : List (Nat × Nat × Nat)),
      f = i → (∀ cp ∈ cps, cp.2.1 = 0 ∧ cp.2.2 = cp.1 + 1) →
      ∀ cp ∈ (bulkSyncGo (fun _ => some .skipped) l i 0 f cps).checkpoints,
        cp.2.1 = 0 ∧ cp.2.2 = cp.1 + 1 := by
  intro l
  induction l with
  | nil =>
    intro i f cps _ hcps
    simpa [bulkSyncGo] using hcps
  | cons u rest ih =>
    intro i f cps hf hcps
    have step : bulkSyncGo (fun _ => some .skipped) (u :: rest) i 0 f cps
        = bulkSyncGo (fun _ => some .skipped) rest (i + 1) 0 (f + 1)
            (if i % 5 = 0 then cps ++ [(i, 0, f + 1)] else cps) := by
      simp [bulkSyncGo]
    rw [step]
    by_cases hi : i % 5 = 0
    · rw [if_pos hi]
      refine ih (i + 1) (f + 1) _ (by omega) ?_
      intro cp hcp
      rcases List.mem_append.mp hcp with hmem | hmem
      · exact hcps cp hmem
      · rcases List.mem_singleton.mp hmem with rfl
        refine ⟨rfl, ?_⟩
        show f + 1 = i + 1
        omega
    · rw [if_neg hi]
      exact ih (i + 1) (f + 1) _ (by omega) hcps

/-- C10: only a final status of `synced` increments the success counter of
`bulkSyncToNotion`; every other processed outcome, `skipped` included,
increments the failed counter, and the checkpointed failed count includes
the skipped items (an all-skipped run checkpoints failed = index + 1 with
zero successes). -/
theorem c10_skipped_counts_as_failed (results : String → Option SyncStatus)
    (uuids : List String) :
    (bulkSyncToNotion results uuids).success
        = (uuids.filter (fun u => decide (results u = some .synced))).length
    ∧ (bulkSyncToNotion results uuids).failed
        = (uuids.filter
            (fun u => (results u).isSome && !decide (results u = some .synced))).length
    ∧ (bulkSyncToNotion (fun _ => some .skipped) uuids).failed = uuids.length
    ∧ ∀ cp ∈ (bulkSyncToNotion (fun _ => some .skipped) uuids).checkpoints,
        cp.2.1 = 0 ∧ cp.2.2 = cp.1 + 1 := by
  refine ⟨?_, ?_, ?_, ?_⟩
  · simpa using bulkSyncGo_success results uuids 0 0 0 []
  · simpa using bulkSyncGo_failed results uuids 0 0 0 []
  · have h := bulkSyncGo_failed (fun _ => some .skipped) uuids 0 0 0 []
    simpa [List.filter_true] using h
  · exact bulkSyncGo_skipped_checkpoints uuids 0 0 [] rfl (by simp)

/-- Witness for C10: a three-item all-skipped run has zero successes,
three failures, and its checkpoint records failed = index + 1. -/
theorem c10_skipped_counts_as_failed_witness :
    (bulkSyncToNotion (fun _ => some .skipped) ["a", "b", "c"]).failed = 3
    ∧ ((0, 0, 1) : Nat × Nat × Nat).2.1 = 0
    ∧ ((0, 0, 1) : Nat × Nat × Nat).2.2 = ((0, 0, 1) : Nat × Nat × Nat).1 + 1 := by
  have h := c10_skipped_counts_as_failed (fun _ => some SyncStatus.skipped) ["a", "b", "c"]
  exact ⟨h.2.2.1, h.2.2.2 (0, 0, 1) (by decide)⟩

/-- The claim C4 validity condition, written from the spec words: invalid
exactly when there are no entries, the uuid is missing, or more than half
of the entries have neither query nor answer.  Declared only to compare
against `validateThreadData`. -/
def claimInvalidC4 (data : ThreadData) : Bool :=
  let entries := entriesOf data
  entries.isEmpty || data.uuid == ""
    || decide (entries.length
        < 2 * entries.countP
            (fun e => !DataValidator.hasQuestionE e && !DataValidator.hasAnswerE e))

/-- Counterexample to C4: a thread with a uuid and two entries that both
carry a query but no answer is invalid for the code (more than half of the
entries lack an answer, the query being irrelevant), while the claim
condition (more than half with neither query nor answer) does not hold. -/
theorem c4_counterexample :
    (DataValidator.validateThreadData
        ⟨"u", "T", some ⟨[⟨"Q", "", "", "", none⟩, ⟨"Q", "", "", "", none⟩]⟩⟩
        "ChatGPT").valid = false
    ∧ claimInvalidC4
        ⟨"u", "T", some ⟨[⟨"Q", "", "", "", none⟩, ⟨"Q", "", "", "", none⟩]⟩⟩ = false := by
  decide

/-- C4 amended: `validateThreadData` returns `valid = false` exactly when
the input has no entries, is missing its uuid, or more than half of its
entries have no answer (queries do not count); in particular 4 entries of
which 3 have neither query nor answer yield `valid = false`. -/
theorem c4_validator_thresholds (data : ThreadData) (platform : String) :
    ((DataValidator.validateThreadData data platform).valid = false ↔
      (entriesOf data).isEmpty = true ∨ data.uuid = ""
        ∨ (entriesOf data).length
            < 2 * (entriesOf data).countP (fun e => !DataValidator.hasAnswerE e))
    ∧ (DataValidator.validateThreadData
        ⟨"u4", "T", some ⟨[⟨"Q", "", "A", "", none⟩, ⟨"", "", "", "", none⟩,
          ⟨"", "", "", "", none⟩, ⟨"", "", "", "", none⟩]⟩⟩
        "ChatGPT").valid = false := by
  constructor
  · have hcnt : (entriesOf data).countP (fun e => !DataValidator.hasAnswerE e)
        ≤ (entriesOf data).length := List.countP_le_length _
    by_cases h1 : data.uuid = ""
    · simp [DataValidator.validateThreadData, h1]
    · by_cases h2 : (entriesOf data).length = 0
      · simp [DataValidator.validateThreadData, h1, h2, List.isEmpty_iff,
          List.length_eq_zero.mp h2]
      · by_cases h3 : (entriesOf data).length
            < 2 * (entriesOf data).countP (fun e => !DataValidator.hasAnswerE e)
        · simp [DataValidator.validateThreadData, h1, h2, h3, Nat.pos_of_ne_zero h2]
        · have hne : ¬entriesOf data = [] := fun h => h2 (by simp [h])
          simp [DataValidator.validateThreadData, h1, h2, h3, List.isEmpty_iff, hne]
  · decide

/-- A valid one-entry thread payload used by the concrete sync scenarios. -/
def sampleData : ThreadData := ⟨"t1", "T", some ⟨[⟨"Q", "", "A", "", none⟩]⟩⟩

/-- A store whose entry for `t1` equals the fingerprint of `sampleData`. -/
def sampleStore : DuplicateDetector.FpStore :=
  fun u => if u = "t1" then some (DuplicateDetector.generateFingerprint sampleData) else none

/-- An invalid payload (no entries) for uuid `u1`. -/
def invalidData : ThreadData := ⟨"u1", "T", some ⟨[]⟩⟩

/-- A store whose entry for `u1` equals the fingerprint of `invalidData`. -/
def invalidStore : DuplicateDetector.FpStore :=
  fun u => if u = "u1" then some (DuplicateDetector.generateFingerprint invalidData) else none

set_option maxRecDepth 8192 in
/-- Counterexample to C1 as stated: a thread whose computed fingerprint
equals the stored one but whose extracted data fails validation is marked
`failed`, not `skipped` (validation runs before the fingerprint check). -/
theorem c1_counterexample :
    invalidStore "u1" = some (DuplicateDetector.generateFingerprint invalidData)
    ∧ (syncSingleThread true "Perplexity" ⟨"u1", "T"⟩ false
        [⟨true, .ok invalidData, .ok ()⟩] invalidStore).map (fun o => o.status)
        = some .failed
    ∧ SyncStatus.failed ≠ SyncStatus.skipped := by
  refine ⟨by decide, ?_, by decide⟩
  decide

/-- C1 amended: for a pass in which a platform tab is found, extraction
succeeds, and the extracted data passes validation, a computed fingerprint
equal to the stored one with the force flag false makes `syncSingleThread`
mark the thread `skipped` and return with zero destination (Notion) calls
and the fingerprint store unchanged. -/
theorem c1_unchanged_skipped (onLine : Bool) (platform : String)
    (thread : ThreadMeta) (data : ThreadData) (nres : Except String Unit)
    (rest : List Attempt) (store : DuplicateDetector.FpStore)
    (hvalid : (DataValidator.validateThreadData data platform).valid = true)
    (hfp : store thread.uuid = some (DuplicateDetector.generateFingerprint data)) :
    syncSingleThread onLine platform thread false
        (⟨true, .ok data, nres⟩ :: rest) store
      = some ⟨.skipped, none, 0, 1, store⟩ := by
  have hne : DuplicateDetector.generateFingerprint data ≠ "" :=
    DuplicateDetector.generateFingerprint_ne_empty data
  have hch : DuplicateDetector.hasChanged store thread.uuid
      (DuplicateDetector.generateFingerprint data) = false := by
    simp [DuplicateDetector.hasChanged, hfp, hne]
  simp [syncSingleThread, hvalid, hch]

set_option maxRecDepth 8192 in
/-- Witness for C1 at the concrete one-entry thread and matching store. -/
theorem c1_unchanged_skipped_witness :
    syncSingleThread true "Perplexity" ⟨"t1", "T"⟩ false
        [⟨true, .ok sampleData, .ok ()⟩] sampleStore
      = some ⟨.skipped, none, 0, 1, sampleStore⟩ :=
  c1_unchanged_skipped true "Perplexity" ⟨"t1", "T"⟩ sampleData (.ok ()) [] sampleStore
    (by decide) (by decide)

set_option maxRecDepth 8192 in
/-- Counterexample to C6 as stated: two consecutive rate-limit failures on
the same item make `syncSingleThread` re-run the full pipeline twice (three
passes, three destination calls) — the recursion at the retry site carries
no per-item counter, so the claimed at-most-one retry bound is violated. -/
theorem c6_counterexample :
    (syncSingleThread true "Perplexity" ⟨"t1", "T"⟩ false
        [⟨true, .ok sampleData, .error "429"⟩,
         ⟨true, .ok sampleData, .error "429"⟩,
         ⟨true, .ok sampleData, .ok ()⟩]
        (fun _ => none)).map (fun o => (o.status, o.reason, o.notionCalls, o.attempts))
      = some (.synced, none, 3, 3)
    ∧ ¬(3 : Nat) ≤ 2 := by
  constructor
  · decide
  · decide

/-- C6 amended: when an export pass fails with an error whose recovery
directive carries `retry` and a (truthy) delay, `syncSingleThread` re-runs
the whole pipeline on the same item with no per-item cap on retries; a
failure whose directive does not say retry-with-delay (including the
offline network case, whose directive has `retry` but no delay) marks the
item `failed` with the directive message, falling back to the raw error
message. -/
theorem c6_retry_behaviour :
    (∀ (onLine : Bool) (platform : String) (thread : ThreadMeta) (force : Bool)
        (data : ThreadData) (e : String) (rest : List Attempt)
        (store : DuplicateDetector.FpStore),
      (DataValidator.validateThreadData data platform).valid = true →
      (DuplicateDetector.hasChanged store thread.uuid
          (DuplicateDetector.generateFingerprint data) = true ∨ force = true) →
      ((ErrorRecovery.handleExportError onLine e).retry
        && ErrorRecovery.delayTruthy (ErrorRecovery.handleExportError onLine e).delay)
        = true →
      syncSingleThread onLine platform thread force
          (⟨true, .ok data, .error e⟩ :: rest) store
        = (syncSingleThread onLine platform thread force rest store).map
            (fun o => ⟨o.status, o.reason, o.notionCalls + 1, o.attempts + 1, o.store⟩))
    ∧ (∀ (onLine : Bool) (platform : String) (thread : ThreadMeta) (force : Bool)
        (data : ThreadData) (e : String) (rest : List Attempt)
        (store : DuplicateDetector.FpStore),
      (DataValidator.validateThreadData data platform).valid = true →
      (DuplicateDetector.hasChanged store thread.uuid
          (DuplicateDetector.generateFingerprint data) = true ∨ force = true) →
      ((ErrorRecovery.handleExportError onLine e).retry
        && ErrorRecovery.delayTruthy (ErrorRecovery.handleExportError onLine e).delay)
        = false →
      syncSingleThread onLine platform thread force
          (⟨true, .ok data, .error e⟩ :: rest) store
        = some ⟨.failed,
            some (recoveryReason (ErrorRecovery.handleExportError onLine e) e),
            1, 1, store⟩) := by
  constructor
  · intro onLine platform thread force data e rest store hvalid hch hretry
    have hnoskip : (!DuplicateDetector.hasChanged store thread.uuid
        (DuplicateDetector.generateFingerprint data) && !force) = false := by
      rcases hch with h | h <;> simp [h]
    simp [syncSingleThread, hvalid, hnoskip, hretry]
  · intro onLine platform thread force data e rest store hvalid hch hretry
    have hnoskip : (!DuplicateDetector.hasChanged store thread.uuid
        (DuplicateDetector.generateFingerprint data) && !force) = false := by
      rcases hch with h | h <;> simp [h]
    simp [syncSingleThread, hvalid, hnoskip, hretry]

set_option maxRecDepth 8192 in
/-- Witness for C6 at a rate-limited pass (retry directive: re-run) and an
unknown-error pass (no retry directive: failed with the raw message). -/
theorem c6_retry_behaviour_witness :
    (syncSingleThread true "Perplexity" ⟨"t1", "T"⟩ false
        [⟨true, .ok sampleData, .error "429"⟩] (fun _ => none)
      = (syncSingleThread true "Perplexity" ⟨"t1", "T"⟩ false [] (fun _ => none)).map
          (fun o => ⟨o.status, o.reason, o.notionCalls + 1, o.attempts + 1, o.store⟩))
    ∧ (syncSingleThread true "Perplexity" ⟨"t1", "T"⟩ false
        [⟨true, .ok sampleData, .error "boom"⟩] (fun _ => none)
      = some ⟨.failed,
          some (recoveryReason (ErrorRecovery.handleExportError true "boom") "boom"),
          1, 1, fun _ => none⟩) := by
  constructor
  · exact c6_retry_behaviour.1 true "Perplexity" ⟨"t1", "T"⟩ false sampleData "429" []
      (fun _ => none) (by decide) (Or.inl (by decide)) (by decide)
  · exact c6_retry_behaviour.2 true "Perplexity" ⟨"t1", "T"⟩ false sampleData "boom" []
      (fun _ => none) (by decide) (Or.inl (by decide)) (by decide)

/-- Counterexample to C5 as stated: a backlog above the 50-item threshold
receives the shorter inter-call delay (200 ms), strictly below the 500 ms
delay of a short queue — the opposite of the claimed ordering. -/
theorem c5_counterexample :
    RateLimiter.adaptiveDelay 51 < RateLimiter.adaptiveDelay 50 := by
  decide

/-- C5 amended: the adaptive inter-call delay of `processQueue` is 200 ms
when the pending queue holds more than 50 items and 500 ms otherwise, so
the above-threshold backlog always gets the strictly shorter delay. -/
theorem c5_adaptive_delay (qAbove qBelow : Nat)
    (hAbove : 50 < qAbove) (hBelow : qBelow ≤ 50) :
    RateLimiter.adaptiveDelay qAbove = 200
    ∧ RateLimiter.adaptiveDelay qBelow = 500
    ∧ RateLimiter.adaptiveDelay qAbove < RateLimiter.adaptiveDelay qBelow := by
  have h1 : RateLimiter.adaptiveDelay qAbove = 200 := by
    simp [RateLimiter.adaptiveDelay, hAbove]
  have h2 : RateLimiter.adaptiveDelay qBelow = 500 := by
    simp [RateLimiter.adaptiveDelay, Nat.not_lt.mpr hBelow]
  exact ⟨h1, h2, by omega⟩

/-- Witness for C5 at queue lengths 51 and 50. -/
theorem c5_adaptive_delay_witness :
    RateLimiter.adaptiveDelay 51 = 200
    ∧ RateLimiter.adaptiveDelay 50 = 500
    ∧ RateLimiter.adaptiveDelay 51 < RateLimiter.adaptiveDelay 50 :=
  c5_adaptive_delay 51 50 (by decide) (by decide)

theorem lastIndexOfFrom_le (s pat : List Char) :
    ∀ i : Nat, lastIndexOfFrom s pat i ≤ (i : Int) := by
  intro i
  induction i with
  | zero => simp only [lastIndexOfFrom]; split <;> simp
  | succ j ih =>
    simp only [lastIndexOfFrom]
    split
    · simp
    · exact le_trans ih (by push_cast; omega)

theorem chunkBreakAt_le (maxLength : Nat) (remaining : List Char) :
    chunkBreakAt maxLength remaining ≤ maxLength := by
  unfold chunkBreakAt
  have h1 := lastIndexOfFrom_le remaining ['\n'] maxLength
  have h2 := lastIndexOfFrom_le remaining ['.', ' '] maxLength
  have h3 := lastIndexOfFrom_le remaining [' '] maxLength
  dsimp only
  split_ifs <;> omega

theorem jsTrim_length_le (s : List Char) : (jsTrim s).length ≤ s.length := by
  unfold jsTrim
  calc ((s.dropWhile jsIsWs).reverse.dropWhile jsIsWs).reverse.length
      = ((s.dropWhile jsIsWs).reverse.dropWhile jsIsWs).length := List.length_reverse _
    _ ≤ (s.dropWhile jsIsWs).reverse.length :=
        (List.dropWhile_sublist _).length_le
    _ = (s.dropWhile jsIsWs).length := List.length_reverse _
    _ ≤ s.length := (List.dropWhile_sublist _).length_le

theorem splitChunksGo_length_le (maxLength : Nat) :
    ∀ (fuel : Nat) (r : List Char),
      ∀ c ∈ splitChunksGo maxLength fuel r, c.length ≤ maxLength + 1 := by
  intro fuel
  induction fuel with
  | zero => intro r c hc; simp [splitChunksGo] at hc
  | succ fuel ih =>
    intro r c hc
    simp only [splitChunksGo] at hc
    split at hc
    · simp at hc
    · split at hc
      · rename_i hlen
        rcases List.mem_singleton.mp hc with rfl
        omega
      · rcases List.mem_cons.mp hc with rfl | hmem
        · have hk : (r.take (chunkBreakAt maxLength r + 1)).length
              ≤ chunkBreakAt maxLength r + 1 := by
            simp [List.length_take]
          have := jsTrim_length_le (r.take (chunkBreakAt maxLength r + 1))
          have := chunkBreakAt_le maxLength r
          omega
        · exact ih _ c hmem

theorem splitChunksGo_join (maxLength : Nat) :
    ∀ (fuel : Nat) (r : List Char), r.length ≤ fuel →
      ∃ ps : List (List Char), ps.flatten = r
        ∧ List.Forall₂ (fun c p => c = jsTrim p ∨ c = p)
            (splitChunksGo maxLength fuel r) ps := by
  intro fuel
  induction fuel with
  | zero =>
    intro r hr
    have hnil : r = [] := List.eq_nil_of_length_eq_zero (Nat.le_zero.mp hr)
    subst hnil
    exact ⟨[], rfl, by simp [splitChunksGo]⟩
  | succ fuel ih =>
    intro r hr
    simp only [splitChunksGo]
    split
    · rename_i h0
      exact ⟨[], (List.eq_nil_of_length_eq_zero h0).symm, by simp⟩
    · split
      · exact ⟨[r], by simp, by simp⟩
      · rename_i h0 h1
        set k := chunkBreakAt maxLength r + 1 with hk
        have hdrop : (r.drop k).length ≤ fuel := by
          have : (r.drop k).length = r.length - k := List.length_drop _ _
          omega
        obtain ⟨ps, hjoin, hrel⟩ := ih (r.drop k) hdrop
        refine ⟨r.take k :: ps, ?_, ?_⟩
        · simp [hjoin]
        · exact List.Forall₂.cons (Or.inl rfl) hrel

/-- Counterexample to C3 as stated: with text `aaaa` and limit 2 the first
chunk has 3 characters — the fallback branch slices `breakPoint + 1 =
maxLength + 1` characters, so a chunk can exceed the limit by one. -/
theorem c3_counterexample :
    splitTextIntoChunks ['a', 'a', 'a', 'a'] 2 = [['a', 'a', 'a'], ['a']]
    ∧ ¬ ∀ c ∈ splitTextIntoChunks ['a', 'a', 'a', 'a'] 2, c.length ≤ 2 := by
  constructor
  · decide
  · decide

/-- C3 amended: every chunk of `splitTextIntoChunks text M` has at most
`M + 1` characters (the slice takes `breakPoint + 1 ≤ M + 1` characters
and trimming only shortens it; the bound `M` itself fails), and the text
is recovered from the chunks up to the whitespace trimmed at the chunk
boundaries: the input splits into consecutive pieces, one per chunk, each
chunk being its piece or its piece trimmed. -/
theorem c3_chunking (text : List Char) (M : Nat) :
    (∀ c ∈ splitTextIntoChunks text M, c.length ≤ M + 1)
    ∧ ∃ ps : List (List Char), ps.flatten = text
        ∧ List.Forall₂ (fun c p => c = jsTrim p ∨ c = p)
            (splitTextIntoChunks text M) ps :=
  ⟨splitChunksGo_length_le M text.length text,
   splitChunksGo_join M text.length text le_rfl⟩

/-- Witness for C3 at the `aaaa` text with limit 2: the oversized first
chunk still satisfies the corrected `M + 1` bound. -/
theorem c3_chunking_witness :
    (['a', 'a', 'a'] : List Char).length ≤ 2 + 1 :=
  (c3_chunking ['a', 'a', 'a', 'a'] 2).1 ['a', 'a', 'a'] (by decide)

/-- Counting filters is monotone under pointwise implication. -/
theorem filter_length_mono {α : Type} (l : List α) (p q : α → Bool)
    (h : ∀ a ∈ l, p a = true → q a = true) :
    (l.filter p).length ≤ (l.filter q).length := by
  induction l with
  | nil => simp
  | cons x xs ih =>
    have ihx := ih (fun a ha => h a (List.mem_cons_of_mem _ ha))
    by_cases hp : p x = true
    · rw [List.filter_cons_of_pos hp,
        List.filter_cons_of_pos (h x (List.mem_cons_self _ _) hp)]
      simpa using ihx
    · rw [List.filter_cons_of_neg (by simpa using hp)]
      by_cases hq : q x = true
      · rw [List.filter_cons_of_pos hq]
        exact le_trans ihx (by simp)
      · rw [List.filter_cons_of_neg (by simpa using hq)]
        exact ihx

/-- A descending list splits as its filtered prefix followed by rejected
elements, for any predicate that is upward closed on values. -/
theorem filter_desc_split (p : Nat → Bool) :
    ∀ l : List Nat, l.Pairwise (fun a b => b ≤ a) →
      (∀ a b : Nat, b ≤ a → p b = true → p a = true) →
      ∃ suf, l = l.filter p ++ suf ∧ ∀ u ∈ suf, p u = false := by
  intro l
  induction l with
  | nil => exact fun _ _ => ⟨[], by simp⟩
  | cons x xs ih =>
    intro hdesc hup
    rcases List.pairwise_cons.mp hdesc with ⟨hx, hxs⟩
    by_cases hp : p x = true
    · rcases ih hxs hup with ⟨suf, heq, hsuf⟩
      refine ⟨suf, ?_, hsuf⟩
      rw [List.filter_cons_of_pos hp, List.cons_append]
      exact congrArg (x :: ·) heq
    · have hall : ∀ u ∈ x :: xs, p u = false := by
        intro u hu
        rcases List.mem_cons.mp hu with rfl | hu'
        · simpa using hp
        · by_contra hc
          exact hp (hup x u (hx u hu') (by simpa using hc))
      refine ⟨x :: xs, ?_, hall⟩
      rw [List.filter_eq_nil_iff.mpr (fun a ha => by simp [hall a ha]), List.nil_append]

/-- The per-dispatch guard of `processQueue`, expressed on the dispatch
trace (newest first): every dispatch saw strictly fewer than `R` prior
dispatches within the strict trailing 60 s, and the trace is descending. -/
def WithinCheck (R : Nat) : List Nat → Prop
  | [] => True
  | t :: older =>
    ((older.filter (fun u => decide (t - u < 60000))).length < R)
    ∧ (∀ u ∈ older, u ≤ t) ∧ WithinCheck R older

/-- Invariant tying the limiter state to its dispatch trace: the trace is
bounded by the clock, `requestTimestamps` is a prefix of the trace whose
dropped remainder is at least 60 s old, and every dispatch passed the
rate-window guard. -/
def RLInv (R : Nat) (s : RateLimiter.RLState) : Prop :=
  (∀ u ∈ s.traceRev, u ≤ s.time)
  ∧ (∃ dr, s.traceRev = s.tsRev ++ dr ∧ ∀ u ∈ dr, u + 60000 ≤ s.time)
  ∧ WithinCheck R s.traceRev

theorem withinCheck_pairwise (R : Nat) :
    ∀ l, WithinCheck R l → l.Pairwise (fun a b => b ≤ a) := by
  intro l
  induction l with
  | nil => intro _; exact List.Pairwise.nil
  | cons t older ih =>
    intro h
    exact List.pairwise_cons.mpr ⟨h.2.1, ih h.2.2⟩

theorem rlinv_time_mono (R : Nat) (s : RateLimiter.RLState) (t' : Nat)
    (h : RLInv R s) (ht : s.time ≤ t') :
    RLInv R ⟨t', s.tsRev, s.traceRev⟩ := by
  obtain ⟨hle, ⟨dr, hsplit, hdr⟩, hgood⟩ := h
  exact ⟨fun u hu => le_trans (hle u hu) ht,
    ⟨dr, hsplit, fun u hu => le_trans (hdr u hu) ht⟩, hgood⟩

theorem rlinv_wait (R : Nat) (s : RateLimiter.RLState) (w : Nat)
    (h : RLInv R s) :
    RLInv R ⟨s.time + w, s.tsRev.filter (fun t => decide (s.time - t < 60000)),
      s.traceRev⟩ := by
  obtain ⟨hle, ⟨dr, hsplit, hdr⟩, hgood⟩ := h
  have htsmem : ∀ u ∈ s.tsRev, u ≤ s.time := by
    intro u hu
    exact hle u (hsplit ▸ List.mem_append_left _ hu)
  have hdesc : s.tsRev.Pairwise (fun a b => b ≤ a) := by
    have hp := withinCheck_pairwise R s.traceRev hgood
    rw [hsplit] at hp
    exact hp.sublist (List.sublist_append_left _ _)
  have hup : ∀ a b : Nat, b ≤ a →
      (decide (s.time - b < 60000)) = true → (decide (s.time - a < 60000)) = true := by
    intro a b hba hb
    simp only [decide_eq_true_eq] at hb ⊢
    omega
  obtain ⟨suf, hts, hsuf⟩ := filter_desc_split _ s.tsRev hdesc hup
  refine ⟨?_, ⟨suf ++ dr, ?_, ?_⟩, hgood⟩
  · show ∀ u ∈ s.traceRev, u ≤ s.time + w
    intro u hu
    have := hle u hu
    omega
  · show s.traceRev
      = s.tsRev.filter (fun t => decide (s.time - t < 60000)) ++ (suf ++ dr)
    conv_lhs => rw [hsplit, hts]
    rw [List.append_assoc]
  · show ∀ u ∈ suf ++ dr, u + 60000 ≤ s.time + w
    intro u hu
    rcases List.mem_append.mp hu with hu1 | hu1
    · have h1 := htsmem u (hts ▸ List.mem_append_right _ hu1)
      have h2 := hsuf u hu1
      simp only [decide_eq_false_iff_not] at h2
      omega
    · have := hdr u hu1
      omega

theorem rlinv_dispatch (R : Nat) (s : RateLimiter.RLState) (d : Nat)
    (h : RLInv R s)
    (hlen : (s.tsRev.filter (fun t => decide (s.time - t < 60000))).length < R) :
    RLInv R ⟨s.time + d,
      s.time :: s.tsRev.filter (fun t => decide (s.time - t < 60000)),
      s.time :: s.traceRev⟩ := by
  obtain ⟨hle, ⟨dr, hsplit, hdr⟩, hgood⟩ := h
  have htsmem : ∀ u ∈ s.tsRev, u ≤ s.time := by
    intro u hu
    exact hle u (hsplit ▸ List.mem_append_left _ hu)
  have hdesc : s.tsRev.Pairwise (fun a b => b ≤ a) := by
    have hp := withinCheck_pairwise R s.traceRev hgood
    rw [hsplit] at hp
    exact hp.sublist (List.sublist_append_left _ _)
  have hup : ∀ a b : Nat, b ≤ a →
      (decide (s.time - b < 60000)) = true → (decide (s.time - a < 60000)) = true := by
    intro a b hba hb
    simp only [decide_eq_true_eq] at hb ⊢
    omega
  obtain ⟨suf, hts, hsuf⟩ := filter_desc_split _ s.tsRev hdesc hup
  refine ⟨?_, ⟨suf ++ dr, ?_, ?_⟩, ?_, ?_, hgood⟩
  · show ∀ u ∈ s.time :: s.traceRev, u ≤ s.time + d
    intro u hu
    rcases List.mem_cons.mp hu with rfl | hu1
    · omega
    · have := hle u hu1
      omega
  · show s.time :: s.traceRev
      = (s.time :: s.tsRev.filter (fun t => decide (s.time - t < 60000))) ++ (suf ++ dr)
    rw [List.cons_append]
    refine congrArg (s.time :: ·) ?_
    conv_lhs => rw [hsplit, hts]
    rw [List.append_assoc]
  · show ∀ u ∈ suf ++ dr, u + 60000 ≤ s.time + d
    intro u hu
    rcases List.mem_append.mp hu with hu1 | hu1
    · have h1 := htsmem u (hts ▸ List.mem_append_right _ hu1)
      have h2 := hsuf u hu1
      simp only [decide_eq_false_iff_not] at h2
      omega
    · have := hdr u hu1
      omega
  · show (s.traceRev.filter (fun u => decide (s.time - u < 60000))).length < R
    have hfiltereq : s.traceRev.filter (fun u => decide (s.time - u < 60000))
        = s.tsRev.filter (fun u => decide (s.time - u < 60000)) := by
      conv_lhs => rw [hsplit]
      rw [List.filter_append]
      have hdrnil : dr.filter (fun u => decide (s.time - u < 60000)) = [] := by
        apply List.filter_eq_nil_iff.mpr
        intro u hu
        have := hdr u hu
        simp only [decide_eq_true_eq, Bool.not_eq_true, decide_eq_false_iff_not]
        omega
      rw [hdrnil, List.append_nil]
    rw [hfiltereq]
    exact hlen
  · show ∀ u ∈ s.traceRev, u ≤ s.time
    exact hle

theorem processQueue_inv (R : Nat) :
    ∀ (fuel : Nat) (q : List RateLimiter.Item) (s : RateLimiter.RLState),
      RLInv R s → RLInv R (RateLimiter.processQueue R fuel q s) := by
  intro fuel
  induction fuel with
  | zero => intro q s h; simpa [RateLimiter.processQueue] using h
  | succ fuel ih =>
    intro q s h
    match q with
    | [] => simpa [RateLimiter.processQueue] using h
    | item :: qrest =>
      rw [RateLimiter.processQueue]
      dsimp only
      split
      · exact ih qrest s h
      · split
        · exact ih (item :: qrest) _ (rlinv_wait R s _ h)
        · rename_i hstale hlen
          have hd := rlinv_dispatch R s
            (item.dur + RateLimiter.adaptiveDelay qrest.length) h (by omega)
          rw [← Nat.add_assoc] at hd
          exact ih qrest _ hd

theorem processQueueRuns_inv (R : Nat) :
    ∀ (batches : List (Nat × Nat × List RateLimiter.Item)) (s : RateLimiter.RLState),
      RLInv R s → RLInv R (RateLimiter.processQueueRuns R batches s) := by
  intro batches
  induction batches with
  | nil => intro s h; simpa [RateLimiter.processQueueRuns] using h
  | cons b bs ih =>
    intro s h
    obtain ⟨gap, fuel, q⟩ := b
    rw [RateLimiter.processQueueRuns]
    exact ih _ (processQueue_inv R fuel q _ (rlinv_time_mono R s _ h (Nat.le_add_right _ _)))

theorem withinCheck_window (R : Nat) :
    ∀ l, WithinCheck R l → ∀ T : Nat,
      (l.filter (fun t => decide (T ≤ t ∧ t < T + 60000))).length ≤ R := by
  intro l h T
  induction l with
  | nil => simp
  | cons t older ih =>
    obtain ⟨hcnt, hle, holder⟩ := h
    by_cases hin : T ≤ t ∧ t < T + 60000
    · rw [List.filter_cons_of_pos (by simpa using hin)]
      have hmle := filter_length_mono older
        (fun u => decide (T ≤ u ∧ u < T + 60000))
        (fun u => decide (t - u < 60000))
        (by
          intro u hu hw
          have := hle u hu
          simp only [decide_eq_true_eq] at hw ⊢
          omega)
      simp only [List.length_cons]
      omega
    · rw [List.filter_cons_of_neg (by simpa using hin)]
      exact ih holder

/-- C2: for every sequence of calls submitted to a `RateLimiter` with
`requestsPerMinute = R` (any interleaving of `processQueue` runs, queue
contents, enqueue times, call durations and fuel), the dispatch trace
never contains more than `R` dispatches inside any 60-second window
`[T, T + 60000)`.  `R ≥ 1` keeps the model inside the source behaviour:
at `R = 0` the source would evaluate `Math.min()` of an empty array. -/
theorem c2_rate_limit_window (R t0 : Nat)
    (batches : List (Nat × Nat × List RateLimiter.Item)) (T : Nat)
    (hR : 1 ≤ R) :
    ((RateLimiter.processQueueRuns R batches (RateLimiter.initState t0)).traceRev.filter
        (fun t => decide (T ≤ t ∧ t < T + 60000))).length ≤ R := by
  have hinit : RLInv R (RateLimiter.initState t0) :=
    ⟨by simp [RateLimiter.initState], ⟨[], by simp [RateLimiter.initState], by simp⟩,
      by simp [RateLimiter.initState, WithinCheck]⟩
  have hinv := processQueueRuns_inv R batches _ hinit
  exact withinCheck_window R _ hinv.2.2 T

/-- Witness for C2: a concrete run of four instantaneous calls against a
30-per-minute limiter observed on the window starting at 0. -/
theorem c2_rate_limit_window_witness :
    ((RateLimiter.processQueueRuns 30
        [(0, 20, [⟨0, 0⟩, ⟨0, 0⟩, ⟨0, 5⟩, ⟨1, 0⟩])]
        (RateLimiter.initState 0)).traceRev.filter
        (fun t => decide (0 ≤ t ∧ t < 0 + 60000))).length ≤ 30 :=
  c2_rate_limit_window 30 0 [(0, 20, [⟨0, 0⟩, ⟨0, 0⟩, ⟨0, 5⟩, ⟨1, 0⟩])] 0 (by decide)
